import Mathlib

set_option maxRecDepth 4000

/-! Verification development for the wireproxy VS Code extension
    (`src/extension.js`).  The file shallowly embeds the extension's
    config-file handling (`getWireguardPath`, `updateConfig`, `resetConfig`),
    its process supervisor (`startWireproxy`, `stopWireproxy`, the `exit` and
    `error` observers, the one-second stability timer) and its status-bar
    texts (`statusMessages`, `getStatusFromText`, `updateTooltip`).

    File contents and status-bar texts are modelled as `List Char`; the
    module-level mutable variables of the JS file become fields of a single
    state record `SupState`; the asynchronous callbacks become explicit
    functions taking the values they capture plus the current state, and the
    event loop becomes a step relation `Step` whose events (process exit,
    process close, timer fire, process error) invoke those callbacks. -/

/-- Characters the JS regex engine treats as line terminators; relevant to
    the `m`-flag anchor `^` and to `.` in the pattern at extension.js:82. -/
def isLineTerm (c : Char) : Bool :=
  c == '\n' || c == '\r' || c == '\u2028' || c == '\u2029'

/-- Splits a character list into the maximal runs separated by line
    terminators, mirroring the positions at which the `m`-flag `^` of the JS
    regex can anchor.  `acc` holds the reversed current line. -/
def splitLinesAux : List Char → List Char → List (List Char)
  | [], acc => [acc.reverse]
  | c :: cs, acc =>
    if isLineTerm c then acc.reverse :: splitLinesAux cs []
    else splitLinesAux cs (c :: acc)

/-- The lines of a file's contents, in order. -/
def splitLines (content : List Char) : List (List Char) :=
  splitLinesAux content []

/-- Strips a literal from the front of a list: `stripPre lit l` is
    `some rest` when `l = lit ++ rest`, and `none` otherwise. -/
def stripPre : List Char → List Char → Option (List Char)
  | [], l => some l
  | _ :: _, [] => none
  | a :: as, b :: bs => if a = b then stripPre as bs else none

/-- The literal `WGConfig = "` that the regex `^WGConfig = "(.*)"` requires
    at the start of a line. -/
def wgKeyQuote : List Char := "WGConfig = \"".data

/-- Given the rest of a line after `WGConfig = "`, the capture of the greedy
    group `(.*)` followed by `"`: everything strictly before the last `"` of
    the line, or `none` when the line has no further `"` (the regex then
    fails on this line). -/
def captureAfter (r : List Char) : Option (List Char) :=
  match r.reverse.dropWhile (fun c => c != '\"') with
  | [] => none
  | _ :: t => some t.reverse

/-- Whether one line matches `^WGConfig = "(.*)"`, and its capture if so. -/
def matchWGLine (l : List Char) : Option (List Char) :=
  match stripPre wgKeyQuote l with
  | none => none
  | some r => captureAfter r

/-- First match over the lines, in order (JS `String.match` without the `g`
    flag returns the leftmost match). -/
def findWGLine : List (List Char) → Option (List Char)
  | [] => none
  | l :: ls =>
    match matchWGLine l with
    | some r => some r
    | none => findWGLine ls

/-- `content.match(/^WGConfig = "(.*)"/m)` from extension.js:82, returning
    the captured group of the first matching line. -/
def extractWGPath (content : List Char) : Option (List Char) :=
  findWGLine (splitLines content)

/-- The fixed local proxy port (`PROXY_PORT`, extension.js:12). -/
def PROXY_PORT : Nat := 25345

/-- The file contents written by `updateConfig` (extension.js:98-101):
    `WGConfig = "<path>"\n[http]\nBindAddress = 127.0.0.1:25345`. -/
def renderConfig (wireguardPath : List Char) : List Char :=
  wgKeyQuote ++ wireguardPath ++ ('\"' :: '\n' :: ("[http]\nBindAddress = 127.0.0.1:" ++ toString PROXY_PORT).data)

/-- `getWireguardPath` (extension.js:79-87): reading an absent file throws
    and is caught, yielding `null`; otherwise the regex capture or `null`.
    The filesystem is modelled as the optional contents of the single
    `wireproxy.conf` file. -/
def getWireguardPath : Option (List Char) → Option (List Char)
  | none => none
  | some content => extractWGPath content

/-- `path.basename`: the final path segment, after the last `/`. -/
def basename (p : List Char) : List Char :=
  (p.reverse.takeWhile (fun c => c != '/')).reverse

/-- Removal of a trailing `.conf` extension, as `path.basename(p, ".conf")`
    does when the name ends with it. -/
def dropConfExt (n : List Char) : List Char :=
  match stripPre ".conf".data.reverse n.reverse with
  | some r => r.reverse
  | none => n

/-- `getProfileName` (extension.js:90-92) on a present path. -/
def getProfileName (wireguardPath : List Char) : List Char :=
  dropConfExt (basename wireguardPath)

/-- `EXTENSION_NAME` (extension.js:6). -/
def EXTENSION_NAME : List Char := "WireGuard".data

/-- `statusMessages.noConfig` (extension.js:8). -/
def statusMessages_noConfig : List Char :=
  "$(question) ".data ++ EXTENSION_NAME ++ ": No Config".data

/-- `statusMessages.error` (extension.js:9). -/
def statusMessages_error : List Char :=
  "$(error) ".data ++ EXTENSION_NAME ++ ": Error".data

/-- `statusMessages.starting` (extension.js:10). -/
def statusMessages_starting : List Char :=
  "$(sync~spin) ".data ++ EXTENSION_NAME ++ ": Starting...".data

/-- The connected status-bar text built at extension.js:39, 139 and 162. -/
def connectedText (profileName : List Char) : List Char :=
  "$(check) ".data ++ EXTENSION_NAME ++ ": ".data ++ profileName

/-- `getStatusFromText` (extension.js:216-222), with the same test order. -/
def getStatusFromText (text : List Char) : String :=
  if (stripPre "$(check)".data text).isSome then "Connected"
  else if (stripPre "$(question)".data text).isSome then "No Config"
  else if (stripPre "$(error)".data text).isSome then "Error"
  else if (stripPre "$(sync~spin)".data text).isSome then "Starting"
  else "Unknown"

/-- The tooltip string assigned by `updateTooltip` (extension.js:225-230) for
    a given status-bar text. -/
def tooltipFor (text : List Char) : String :=
  "Status: " ++ getStatusFromText text ++ "\nWireproxy port: " ++ toString PROXY_PORT

/-- The proxy URL written into the `http.proxy` setting (extension.js:124). -/
def proxyUrl : String := "http://127.0.0.1:" ++ toString PROXY_PORT

/-- One spawned external process.  `alive` is OS-level liveness; `killed` is
    Node's `ChildProcess.killed` flag (set when a signal was successfully
    sent, which never happens for an already-dead process); `obsProfile` and
    `obsNewConfig` are the values of `profileName` and `isNewConfig` captured
    by the `exit`/`error` observers registered at spawn time. -/
structure Proc where
  pid : Nat
  alive : Bool
  killed : Bool
  obsProfile : List Char
  obsNewConfig : Bool
deriving DecidableEq, Repr

/-- Result of the synchronous part of `stopWireproxy`: either the resolved
    promise of the no-op path, or a promise pending on the `close` event of
    the given process. -/
inductive StopOutcome where
  | immediate
  | pending (pid : Nat)
deriving DecidableEq, Repr

/-- The module-level mutable state of extension.js plus the modelled
    environment: all processes ever spawned, the `wireproxyProcess` variable
    (`handle`, a pid or `none` for `null`), `isStopping`, the pids with a
    `close` listener registered by `stopWireproxy` (`stopWaiters`), the
    continuation of a `selectConfig` call awaiting `stopWireproxy`
    (`pendingSelect`), `currentWireguardPath`, the optional contents of
    `wireproxy.conf` (`configFile`), the status-bar text, the error
    notifications shown (most recent first), the `http.proxy` setting, and
    the armed stability timers with their captured `(profileName,
    isNewConfig)`. -/
structure SupState where
  nextPid : Nat
  procs : List Proc
  handle : Option Nat
  isStopping : Bool
  stopWaiters : List Nat
  pendingSelect : Option (List Char)
  currentWireguardPath : Option (List Char)
  configFile : Option (List Char)
  statusText : List Char
  notifications : List String
  proxy : String
  timers : List (List Char × Bool)
deriving DecidableEq, Repr

/-- Lookup of a process record by pid. -/
def findProc (s : SupState) (pid : Nat) : Option Proc :=
  s.procs.find? (fun p => p.pid == pid)

/-- Effect of `kill("SIGTERM")` on one process record: Node sets `killed`
    only when the signal is actually delivered, i.e. when the process is
    still alive. -/
def killOne (pid : Nat) (p : Proc) : Proc :=
  if p.pid = pid then (if p.alive then { p with killed := true } else p) else p

/-- `kill("SIGTERM")` sent to the process `pid`. -/
def killProcList (pid : Nat) (ps : List Proc) : List Proc :=
  ps.map (killOne pid)

/-- Effect of OS-level death on one process record. -/
def deadOne (pid : Nat) (p : Proc) : Proc :=
  if p.pid = pid then { p with alive := false } else p

/-- OS-level death of the process `pid`. -/
def setDeadList (pid : Nat) (ps : List Proc) : List Proc :=
  ps.map (deadOne pid)

/-- The synchronous body of `stopWireproxy` (extension.js:197-213).  When
    `wireproxyProcess && !wireproxyProcess.killed` it sets `isStopping`,
    sends `SIGTERM` and registers a `close` listener, returning a pending
    promise; otherwise it is a no-op returning an already-resolved promise.
    The `close` listener itself runs later, in `procClose`. -/
def stopWireproxy (s : SupState) : SupState × StopOutcome :=
  match s.handle with
  | none => (s, .immediate)
  | some pid =>
    match findProc s pid with
    | none => (s, .immediate)
    | some p =>
      if p.killed then (s, .immediate)
      else
        ({ s with isStopping := true,
                  procs := killProcList pid s.procs,
                  stopWaiters := pid :: s.stopWaiters }, .pending pid)

/-- `updateConfig` (extension.js:95-103): overwrites `wireproxy.conf` and the
    in-memory pointer. -/
def updateConfig (wireguardPath : List Char) (s : SupState) : SupState :=
  { s with configFile := some (renderConfig wireguardPath),
           currentWireguardPath := some wireguardPath }

/-- `resetConfig` (extension.js:106-114): deletes `wireproxy.conf` if
    present, clears the in-memory pointer, sets the No Config status text and
    clears the `http.proxy` setting. -/
def resetConfig (s : SupState) : SupState :=
  { s with configFile := none,
           currentWireguardPath := none,
           statusText := statusMessages_noConfig,
           proxy := "" }

/-- The synchronous body of `startWireproxy` (extension.js:117-177): calls
    `stopWireproxy` WITHOUT awaiting it, sets the `http.proxy` setting,
    spawns a fresh process (recording the observers' captured values), and
    arms the one-second stability timer.  The timer callback and the
    `exit`/`error` observers run later, as `timerCallback`, `procDies` and
    `procErrorEv`. -/
def startWireproxy (profileName : List Char) (isNewConfig : Bool) (s : SupState) : SupState :=
  let s1 := (stopWireproxy s).1
  { s1 with proxy := proxyUrl,
            nextPid := s1.nextPid + 1,
            procs := { pid := s1.nextPid, alive := true, killed := false,
                       obsProfile := profileName, obsNewConfig := isNewConfig } :: s1.procs,
            handle := some s1.nextPid,
            timers := (profileName, isNewConfig) :: s1.timers }

/-- `wireproxyProcess && !wireproxyProcess.killed`, the liveness test used by
    `stopWireproxy` and the stability timer. -/
def isLiveHandle (s : SupState) : Bool :=
  match s.handle with
  | none => false
  | some pid =>
    match findProc s pid with
    | none => false
    | some p => !p.killed

/-- The argument of `vscode.window.showErrorMessage` at extension.js:166-168:
    JS `code || signal || "unknown"` where `code` is a number or null and in
    this branch is not 0 (so it is falsy exactly when null). -/
def codeOrSignalStr (code : Option Int) (signal : Option String) : String :=
  match code with
  | some c =>
    if c = 0 then (match signal with | some sg => sg | none => "unknown") else toString c
  | none => match signal with | some sg => sg | none => "unknown"

/-- The notification text of the exit observer's failure branch. -/
def exitMsg (code : Option Int) (signal : Option String) : String :=
  "WireProxy exited with code " ++ codeOrSignalStr code signal ++ ". Possibly invalid configuration file."

/-- The notification text of `handleError` (extension.js:181-187), keyed on
    whether `err.code === "ENOENT"`. -/
def handleErrMsg (err : Option String) : String :=
  (if err = some "ENOENT" then
    "WireProxy is not installed. Please install wireproxy and add it to your PATH."
  else "WireProxy failed to start.") ++ " Possibly invalid configuration file."

/-- The `exit` observer registered at extension.js:156-176, with its captured
    `isNewConfig` and `profileName` and the reported `(code, signal)`.  It
    returns early when `isStopping && signal === "SIGTERM"`; on `code === 0`
    it may set the connected text; otherwise it shows a notification,
    resets the config (`isNewConfig`) or degrades the status to Error, and
    calls `stopWireproxy` (not awaited). -/
def exitHandler (isNewConfig : Bool) (profileName : List Char) (code : Option Int)
    (signal : Option String) (s : SupState) : SupState :=
  if s.isStopping = true ∧ signal = some "SIGTERM" then s
  else if code = some 0 then
    (if isNewConfig then { s with statusText := connectedText profileName } else s)
  else
    let s1 := { s with notifications := exitMsg code signal :: s.notifications }
    let s2 := if isNewConfig then resetConfig s1
              else { s1 with statusText := statusMessages_error }
    (stopWireproxy s2).1

/-- `handleError` (extension.js:180-194): shows a notification, then either
    resets the config (`isNewConfig`) or degrades the status to Error and
    calls `stopWireproxy` (not awaited). -/
def handleError (err : Option String) (isNewConfig : Bool) (s : SupState) : SupState :=
  let s1 := { s with notifications := handleErrMsg err :: s.notifications }
  if isNewConfig then resetConfig s1
  else (stopWireproxy { s1 with statusText := statusMessages_error }).1

/-- The stability-timer callback armed at extension.js:136-149, with its
    captured `profileName` and `isNewConfig`; it reads the current
    `wireproxyProcess` variable. -/
def timerCallback (profileName : List Char) (isNewConfig : Bool) (s : SupState) : SupState :=
  if isLiveHandle s then
    (if isNewConfig then { s with statusText := connectedText profileName } else s)
  else if isNewConfig then resetConfig s
  else (stopWireproxy { s with statusText := statusMessages_error }).1

/-- OS event: the process `pid` dies reporting `(code, signal)`.  Its `exit`
    observer then runs with the values captured at its spawn. -/
def procDies (pid : Nat) (code : Option Int) (signal : Option String) (s : SupState) : SupState :=
  match findProc s pid with
  | none => s
  | some p =>
    if p.alive then
      exitHandler p.obsNewConfig p.obsProfile code signal
        { s with procs := setDeadList pid s.procs }
    else s

/-- The continuation of `selectConfig` (extension.js:70-74) after its awaited
    `stopWireproxy` resolves: persist the new config, set the Starting text,
    and call `startWireproxy` with `isNewConfig = true`. -/
def selectContinue (newPath : List Char) (s : SupState) : SupState :=
  startWireproxy (getProfileName newPath) true
    { (updateConfig newPath s) with statusText := statusMessages_starting }

/-- OS event: the `close` event of the process `pid` (which fires only after
    the process has ended).  If `stopWireproxy` registered a listener for it,
    that listener nulls `wireproxyProcess`, clears `isStopping` and the
    `http.proxy` setting, and resolves the stop promise — which resumes a
    `selectConfig` call awaiting it, if any. -/
def procClose (pid : Nat) (s : SupState) : SupState :=
  match findProc s pid with
  | none => s
  | some p =>
    if p.alive then s
    else if pid ∈ s.stopWaiters then
      match s.pendingSelect with
      | some newPath =>
        selectContinue newPath
          { s with handle := none, isStopping := false, proxy := "",
                   stopWaiters := s.stopWaiters.filter (fun q => q != pid),
                   pendingSelect := none }
      | none =>
        { s with handle := none, isStopping := false, proxy := "",
                 stopWaiters := s.stopWaiters.filter (fun q => q != pid) }
    else s

/-- `selectConfig` (extension.js:58-76) once the user has picked `newPath`:
    no-op when it equals the current path; otherwise awaits `stopWireproxy`
    — continuing immediately when the stop resolves at once, and parking the
    continuation in `pendingSelect` when the stop is pending on a `close`
    event. -/
def selectConfig (newPath : List Char) (s : SupState) : SupState :=
  if s.currentWireguardPath = some newPath then s
  else
    match stopWireproxy s with
    | (s1, .immediate) => selectContinue newPath s1
    | (s1, .pending _) => { s1 with pendingSelect := some newPath }

/-- OS event: the `error` observer of the process `pid` fires (spawn failure
    such as ENOENT, under which the process is not running); it runs
    `handleError` with the captured `isNewConfig`. -/
def procErrorEv (pid : Nat) (err : Option String) (s : SupState) : SupState :=
  match findProc s pid with
  | none => s
  | some p => handleError err p.obsNewConfig { s with procs := setDeadList pid s.procs }

/-- The status-bar text assignment at extension.js:38-40: the connected
    text built from the current profile name when a truthy (non-empty) path
    is configured, the No Config text otherwise (JS string truthiness: the
    empty string is falsy). -/
def setStatusFromCurrent (s : SupState) : SupState :=
  { s with statusText :=
      match s.currentWireguardPath with
      | some wg =>
        if wg = [] then statusMessages_noConfig else connectedText (getProfileName wg)
      | none => statusMessages_noConfig }

/-- `activate` (extension.js:20-50): when `wireproxy.conf` exists and its
    `WGConfig` path extracts to a truthy (non-empty) string, start wireproxy
    with `isNewConfig = false`; then set the status-bar text from
    `currentWireguardPath` — the connected text immediately, without waiting
    for the stability window. -/
def activate (s : SupState) : SupState :=
  match s.configFile with
  | none => setStatusFromCurrent s
  | some content =>
    match extractWGPath content with
    | none => setStatusFromCurrent { s with currentWireguardPath := none }
    | some wg =>
      if wg = [] then setStatusFromCurrent { s with currentWireguardPath := some wg }
      else
        setStatusFromCurrent
          (startWireproxy (getProfileName wg) false { s with currentWireguardPath := some wg })

/-- The initial state: no processes, no config file, empty settings. -/
def initState : SupState :=
  { nextPid := 0, procs := [], handle := none, isStopping := false,
    stopWaiters := [], pendingSelect := none, currentWireguardPath := none,
    configFile := none, statusText := statusMessages_noConfig,
    notifications := [], proxy := "", timers := [] }

/-- One event-loop step of the extension under its actual control flow:
    a user config selection (only once all previously issued stops have
    completed and no selection is still awaiting one — the serialization the
    single `await stopWireproxy()` of `selectConfig` provides when user
    actions do not overlap), activation from a process-free state, a bare
    `stopWireproxy` call (`deactivate`), and the asynchronous events: a
    process dying, a `close` event, an armed stability timer firing, and a
    process `error` event. -/
inductive Step : SupState → SupState → Prop where
  | selectOp (newPath : List Char) (s : SupState)
      (hw : s.stopWaiters = []) (hp : s.pendingSelect = none) :
      Step s (selectConfig newPath s)
  | activateOp (s : SupState) (hh : s.handle = none)
      (hw : s.stopWaiters = []) (hp : s.pendingSelect = none) :
      Step s (activate s)
  | stopOp (s : SupState) : Step s (stopWireproxy s).1
  | diesOp (pid : Nat) (code : Option Int) (signal : Option String) (s : SupState) :
      Step s (procDies pid code signal s)
  | closeOp (pid : Nat) (s : SupState) : Step s (procClose pid s)
  | timerOp (t : List Char × Bool) (s : SupState) (ht : t ∈ s.timers) :
      Step s (timerCallback t.1 t.2 s)
  | errorOp (pid : Nat) (err : Option String) (s : SupState) :
      Step s (procErrorEv pid err s)

/-- States reachable from the initial state under `Step`. -/
inductive Reach : SupState → Prop where
  | init : Reach initState
  | step {s s' : SupState} : Reach s → Step s s' → Reach s'

/-- The inductive invariant of the supervisor: (1) every OS-live process is
    the one the `wireproxyProcess` variable holds; (2) every registered
    `close` waiter is for the held process; (3) if the held process has been
    signalled, a `close` waiter for it is registered; (4) pids are below
    `nextPid`; (5) pids are distinct; (6) the held pid names a spawned
    process. -/
def SupInv (s : SupState) : Prop :=
  (∀ p ∈ s.procs, p.alive = true → s.handle = some p.pid) ∧
  (∀ pid ∈ s.stopWaiters, s.handle = some pid) ∧
  (∀ p ∈ s.procs, s.handle = some p.pid → p.killed = true → p.pid ∈ s.stopWaiters) ∧
  (∀ p ∈ s.procs, p.pid < s.nextPid) ∧
  (s.procs.map Proc.pid).Nodup ∧
  (∀ pid, s.handle = some pid → ∃ p ∈ s.procs, p.pid = pid)

/-- Elements of two-deep nodup-mapped lists with equal images are equal. -/
theorem nodup_map_mem_eq {α β : Type} {f : α → β} {l : List α} (hn : (l.map f).Nodup)
    {a b : α} (ha : a ∈ l) (hb : b ∈ l) (hf : f a = f b) : a = b := by
  induction l with
  | nil => cases ha
  | cons x xs ih =>
    rw [List.map_cons, List.nodup_cons] at hn
    rcases List.mem_cons.mp ha with rfl | ha'
    · rcases List.mem_cons.mp hb with rfl | hb'
      · rfl
      · exfalso; apply hn.1; rw [hf]; exact List.mem_map_of_mem f hb'
    · rcases List.mem_cons.mp hb with rfl | hb'
      · exfalso; apply hn.1; rw [← hf]; exact List.mem_map_of_mem f ha'
      · exact ih hn.2 ha' hb'

/-- A nodup list whose elements are pairwise equal has at most one element. -/
theorem length_le_one_of_nodup_of_eq {α : Type} {l : List α} (hn : l.Nodup)
    (he : ∀ a ∈ l, ∀ b ∈ l, a = b) : l.length ≤ 1 := by
  match l with
  | [] => simp
  | [a] => simp
  | a :: b :: t =>
    exfalso
    have hab : a = b := he a (by simp) b (by simp)
    rw [List.nodup_cons] at hn
    exact hn.1 (by simp [hab])

theorem killOne_pid (pid : Nat) (p : Proc) : (killOne pid p).pid = p.pid := by
  unfold killOne; split <;> (try split) <;> rfl

theorem killOne_alive (pid : Nat) (p : Proc) : (killOne pid p).alive = p.alive := by
  unfold killOne; split <;> (try split) <;> rfl

theorem killOne_noop (pid : Nat) (p : Proc) (h : ¬p.pid = pid) : killOne pid p = p := by
  unfold killOne; rw [if_neg h]

theorem deadOne_pid (pid : Nat) (p : Proc) : (deadOne pid p).pid = p.pid := by
  unfold deadOne; split <;> rfl

theorem deadOne_killed (pid : Nat) (p : Proc) : (deadOne pid p).killed = p.killed := by
  unfold deadOne; split <;> rfl

theorem deadOne_alive (pid : Nat) (p : Proc) (h : (deadOne pid p).alive = true) :
    p.alive = true := by
  unfold deadOne at h
  by_cases hp : p.pid = pid
  · simp [hp] at h
  · simpa [hp] using h

theorem killProcList_map_pid (pid : Nat) (ps : List Proc) :
    (killProcList pid ps).map Proc.pid = ps.map Proc.pid := by
  unfold killProcList
  rw [List.map_map]
  exact List.map_congr_left fun a _ => killOne_pid pid a

theorem setDeadList_map_pid (pid : Nat) (ps : List Proc) :
    (setDeadList pid ps).map Proc.pid = ps.map Proc.pid := by
  unfold setDeadList
  rw [List.map_map]
  exact List.map_congr_left fun a _ => deadOne_pid pid a

theorem killProcList_length (pid : Nat) (ps : List Proc) :
    (killProcList pid ps).length = ps.length := by simp [killProcList]

theorem setDeadList_length (pid : Nat) (ps : List Proc) :
    (setDeadList pid ps).length = ps.length := by simp [setDeadList]

theorem findProc_mem {s : SupState} {pid : Nat} {p : Proc} (h : findProc s pid = some p) :
    p ∈ s.procs ∧ p.pid = pid := by
  unfold findProc at h
  refine ⟨List.mem_of_find?_eq_some h, ?_⟩
  have := List.find?_some h
  simpa using this

/-- Case analysis of the synchronous body of `stopWireproxy`. -/
theorem stop_cases (s : SupState) :
    stopWireproxy s = (s, StopOutcome.immediate) ∨
    (∃ pid p, s.handle = some pid ∧ findProc s pid = some p ∧ p.killed = false ∧
      stopWireproxy s =
        ({ s with isStopping := true, procs := killProcList pid s.procs,
                  stopWaiters := pid :: s.stopWaiters }, StopOutcome.pending pid)) := by
  unfold stopWireproxy
  split
  next hh => exact Or.inl rfl
  next pid hh =>
    split
    next hf => exact Or.inl rfl
    next p hf =>
      split
      next hk => exact Or.inl rfl
      next hk => exact Or.inr ⟨pid, p, hh, hf, by simpa using hk, rfl⟩

theorem stop_statusText (s : SupState) : ((stopWireproxy s).1).statusText = s.statusText := by
  rcases stop_cases s with hc | ⟨_, _, _, _, _, hc⟩ <;> rw [hc]

theorem stop_configFile (s : SupState) : ((stopWireproxy s).1).configFile = s.configFile := by
  rcases stop_cases s with hc | ⟨_, _, _, _, _, hc⟩ <;> rw [hc]

theorem stop_current (s : SupState) :
    ((stopWireproxy s).1).currentWireguardPath = s.currentWireguardPath := by
  rcases stop_cases s with hc | ⟨_, _, _, _, _, hc⟩ <;> rw [hc]

theorem stop_notifications (s : SupState) :
    ((stopWireproxy s).1).notifications = s.notifications := by
  rcases stop_cases s with hc | ⟨_, _, _, _, _, hc⟩ <;> rw [hc]

theorem stop_handle (s : SupState) : ((stopWireproxy s).1).handle = s.handle := by
  rcases stop_cases s with hc | ⟨_, _, _, _, _, hc⟩ <;> rw [hc]

theorem stop_nextPid (s : SupState) : ((stopWireproxy s).1).nextPid = s.nextPid := by
  rcases stop_cases s with hc | ⟨_, _, _, _, _, hc⟩ <;> rw [hc]

theorem stop_procs_length (s : SupState) :
    ((stopWireproxy s).1).procs.length = s.procs.length := by
  rcases stop_cases s with hc | ⟨pid, p, _, _, _, hc⟩ <;> rw [hc]
  simpa using killProcList_length pid s.procs

/-- `SupInv` only depends on the process list, the handle, the stop waiters
    and the pid counter. -/
theorem inv_of_core {s t : SupState} (h : SupInv s)
    (h1 : t.procs = s.procs) (h2 : t.handle = s.handle)
    (h3 : t.stopWaiters = s.stopWaiters) (h4 : t.nextPid = s.nextPid) : SupInv t := by
  unfold SupInv at *
  rw [h1, h2, h3, h4]
  exact h

/-- `stopWireproxy` preserves the supervisor invariant. -/
theorem inv_stop {s : SupState} (h : SupInv s) : SupInv (stopWireproxy s).1 := by
  rcases stop_cases s with hc | ⟨pid, p, hh, hf, hk, hc⟩
  · rw [hc]; exact h
  · rw [hc]
    obtain ⟨hA, hB, hC, hD, hE, hF⟩ := h
    refine ⟨?_, ?_, ?_, ?_, ?_, ?_⟩
    · intro q hq hqa
      rcases List.mem_map.mp hq with ⟨p', hp', rfl⟩
      rw [killOne_alive] at hqa
      rw [killOne_pid]
      exact hA p' hp' hqa
    · intro q hq
      rcases List.mem_cons.mp hq with rfl | hq'
      · exact hh
      · exact hB q hq'
    · intro q hq hhq hkq
      rcases List.mem_map.mp hq with ⟨p', hp', rfl⟩
      rw [killOne_pid] at hhq ⊢
      by_cases hp : p'.pid = pid
      · exact hp ▸ List.mem_cons_self pid s.stopWaiters
      · rw [killOne_noop pid p' hp] at hkq
        exact List.mem_cons_of_mem pid (hC p' hp' hhq hkq)
    · intro q hq
      rcases List.mem_map.mp hq with ⟨p', hp', rfl⟩
      rw [killOne_pid]
      exact hD p' hp'
    · rw [killProcList_map_pid]; exact hE
    · intro pid' hpid'
      rcases hF pid' hpid' with ⟨p', hp', hpe⟩
      exact ⟨killOne pid p', List.mem_map_of_mem _ hp', by rw [killOne_pid]; exact hpe⟩

/-- OS-level death of a process preserves the supervisor invariant. -/
theorem inv_setDead {s : SupState} (h : SupInv s) (pid : Nat) :
    SupInv { s with procs := setDeadList pid s.procs } := by
  obtain ⟨hA, hB, hC, hD, hE, hF⟩ := h
  refine ⟨?_, ?_, ?_, ?_, ?_, ?_⟩
  · intro q hq hqa
    rcases List.mem_map.mp hq with ⟨p', hp', rfl⟩
    rw [deadOne_pid]
    exact hA p' hp' (deadOne_alive pid p' hqa)
  · exact hB
  · intro q hq hhq hkq
    rcases List.mem_map.mp hq with ⟨p', hp', rfl⟩
    rw [deadOne_pid] at hhq ⊢
    rw [deadOne_killed] at hkq
    exact hC p' hp' hhq hkq
  · intro q hq
    rcases List.mem_map.mp hq with ⟨p', hp', rfl⟩
    rw [deadOne_pid]
    exact hD p' hp'
  · show (setDeadList pid s.procs).map Proc.pid |>.Nodup
    rw [setDeadList_map_pid]; exact hE
  · intro pid' hpid'
    rcases hF pid' hpid' with ⟨p', hp', hpe⟩
    exact ⟨deadOne pid p', List.mem_map_of_mem _ hp', by rw [deadOne_pid]; exact hpe⟩

/-- `startWireproxy` from a state holding no process handle: the embedded
    `stopWireproxy` call resolves immediately and the function reduces to the
    spawn itself. -/
theorem start_eq_of_handle_none {s : SupState} (hh : s.handle = none)
    (pn : List Char) (b : Bool) :
    startWireproxy pn b s =
      { s with proxy := proxyUrl, nextPid := s.nextPid + 1,
               procs := { pid := s.nextPid, alive := true, killed := false,
                          obsProfile := pn, obsNewConfig := b } :: s.procs,
               handle := some s.nextPid,
               timers := (pn, b) :: s.timers } := by
  unfold startWireproxy stopWireproxy
  rw [hh]

/-- Spawning from a state with no handle preserves the supervisor invariant. -/
theorem inv_start {s : SupState} (h : SupInv s) (hh : s.handle = none)
    (pn : List Char) (b : Bool) : SupInv (startWireproxy pn b s) := by
  rw [start_eq_of_handle_none hh]
  obtain ⟨hA, hB, hC, hD, hE, hF⟩ := h
  refine ⟨?_, ?_, ?_, ?_, ?_, ?_⟩
  · intro q hq hqa
    rcases List.mem_cons.mp hq with rfl | hq'
    · rfl
    · exact absurd (hh ▸ hA q hq' hqa) (by simp)
  · intro q hq
    exact absurd (hh ▸ hB q hq) (by simp)
  · intro q hq hhq hkq
    rcases List.mem_cons.mp hq with rfl | hq'
    · simp at hkq
    · have : q.pid = s.nextPid := by simpa using hhq.symm
      exact absurd (this ▸ hD q hq') (by simp)
  · intro q hq
    rcases List.mem_cons.mp hq with rfl | hq'
    · exact Nat.lt_succ_self _
    · exact Nat.lt_succ_of_lt (hD q hq')
  · rw [List.map_cons]
    refine List.nodup_cons.mpr ⟨?_, hE⟩
    intro hmem
    rcases List.mem_map.mp hmem with ⟨q, hq, hqe⟩
    exact absurd (hqe ▸ hD q hq) (by simp)
  · intro pid' hpid'
    have : pid' = s.nextPid := by simpa using hpid'.symm
    exact ⟨_, List.mem_cons_self _ _, this.symm⟩

/-- The `selectConfig` continuation preserves the invariant when the handle
    is empty. -/
theorem inv_selectContinue {s : SupState} (h : SupInv s) (hh : s.handle = none)
    (newPath : List Char) : SupInv (selectContinue newPath s) := by
  unfold selectContinue
  apply inv_start
  · exact inv_of_core h rfl rfl rfl rfl
  · exact hh

/-- The exit observer preserves the supervisor invariant. -/
theorem inv_exitHandler {s : SupState} (h : SupInv s) (b : Bool) (pn : List Char)
    (code : Option Int) (sig : Option String) : SupInv (exitHandler b pn code sig s) := by
  unfold exitHandler
  split
  · exact h
  · split
    · split
      · exact inv_of_core h rfl rfl rfl rfl
      · exact h
    · apply inv_stop
      split
      · exact inv_of_core h rfl rfl rfl rfl
      · exact inv_of_core h rfl rfl rfl rfl

/-- `handleError` preserves the supervisor invariant. -/
theorem inv_handleError {s : SupState} (h : SupInv s) (err : Option String) (b : Bool) :
    SupInv (handleError err b s) := by
  unfold handleError
  split
  · exact inv_of_core h rfl rfl rfl rfl
  · exact inv_stop (inv_of_core h rfl rfl rfl rfl)

/-- The stability-timer callback preserves the supervisor invariant. -/
theorem inv_timerCallback {s : SupState} (h : SupInv s) (pn : List Char) (b : Bool) :
    SupInv (timerCallback pn b s) := by
  unfold timerCallback
  split
  · split
    · exact inv_of_core h rfl rfl rfl rfl
    · exact h
  · split
    · exact inv_of_core h rfl rfl rfl rfl
    · exact inv_stop (inv_of_core h rfl rfl rfl rfl)

/-- A process-death event preserves the supervisor invariant. -/
theorem inv_procDies {s : SupState} (h : SupInv s) (pid : Nat) (code : Option Int)
    (sig : Option String) : SupInv (procDies pid code sig s) := by
  unfold procDies
  split
  · exact h
  · split
    · exact inv_exitHandler (inv_setDead h pid) _ _ _ _
    · exact h

/-- A process-error event preserves the supervisor invariant. -/
theorem inv_procErrorEv {s : SupState} (h : SupInv s) (pid : Nat) (err : Option String) :
    SupInv (procErrorEv pid err s) := by
  unfold procErrorEv
  split
  · exact h
  · exact inv_handleError (inv_setDead h pid) _ _

/-- When the handle names a dead process with a registered close listener,
    no process is alive at all. -/
theorem no_alive_of_dead_waiter {s : SupState} (h : SupInv s) {pid : Nat} {p : Proc}
    (hf : findProc s pid = some p) (ha : ¬p.alive = true) (hw : pid ∈ s.stopWaiters) :
    ∀ q ∈ s.procs, ¬q.alive = true := by
  obtain ⟨hA, hB, hC, hD, hE, hF⟩ := h
  obtain ⟨hpm, hppid⟩ := findProc_mem hf
  intro q hq hqa
  have h1 : s.handle = some q.pid := hA q hq hqa
  have h2 : s.handle = some pid := hB pid hw
  have h3 : q.pid = pid := by simpa using h1.symm.trans h2
  have h4 : q = p := nodup_map_mem_eq hE hq hpm (by rw [h3, hppid])
  exact ha (h4 ▸ hqa)

/-- All registered close waiters name the single held pid, so removing it
    empties the list. -/
theorem waiters_filter_nil {s : SupState} (h : SupInv s) {pid : Nat}
    (hw : pid ∈ s.stopWaiters) :
    s.stopWaiters.filter (fun q => q != pid) = [] := by
  obtain ⟨hA, hB, hC, hD, hE, hF⟩ := h
  rw [List.filter_eq_nil_iff]
  intro q hq
  have h1 : s.handle = some q := hB q hq
  have h2 : s.handle = some pid := hB pid hw
  have h3 : q = pid := by simpa using h1.symm.trans h2
  simp [h3]

/-- A `close` event preserves the supervisor invariant. -/
theorem inv_procClose {s : SupState} (h : SupInv s) (pid : Nat) :
    SupInv (procClose pid s) := by
  unfold procClose
  split
  next hf => exact h
  next p hf =>
    split
    next ha => exact h
    next ha =>
      split
      next hw =>
        have hnil := waiters_filter_nil h hw
        have hdead := no_alive_of_dead_waiter h hf ha hw
        have hs1 : SupInv
            { s with handle := none, isStopping := false, proxy := "",
                     stopWaiters := s.stopWaiters.filter (fun q => q != pid) } := by
          obtain ⟨hA, hB, hC, hD, hE, hF⟩ := h
          refine ⟨?_, ?_, ?_, ?_, ?_, ?_⟩
          · intro q hq hqa
            exact absurd hqa (hdead q hq)
          · intro q hq
            rw [hnil] at hq
            cases hq
          · intro q hq hhq
            simp at hhq
          · exact hD
          · exact hE
          · intro pid' hpid'
            simp at hpid'
        split
        next newPath hps =>
          apply inv_selectContinue
          · exact inv_of_core hs1 rfl rfl rfl rfl
          · rfl
        next hps => exact hs1
      next hw => exact h

/-- If the handle names a live, unsignalled process, `stopWireproxy` returns
    a pending promise for it. -/
theorem stop_pending_of_live {s : SupState} {pid : Nat} {p : Proc}
    (hh : s.handle = some pid) (hf : findProc s pid = some p) (hk : ¬p.killed = true) :
    (stopWireproxy s).2 = StopOutcome.pending pid := by
  unfold stopWireproxy
  split
  next hh' => rw [hh'] at hh; cases hh
  next pid2 hh2 =>
    have hpe : pid2 = pid := by rw [hh2] at hh; simpa using hh
    subst hpe
    split
    next hf2 => rw [hf2] at hf; cases hf
    next p2 hf2 =>
      have hpe2 : p2 = p := by rw [hf2] at hf; simpa using hf
      subst hpe2
      split
      next hk2 => exact absurd hk2 hk
      next => rfl

/-- Under the invariant, with no registered waiters, an immediately resolved
    `stopWireproxy` can only come from an empty handle. -/
theorem stop_immediate_handle_none {s : SupState} (h : SupInv s) (hw : s.stopWaiters = [])
    (hi : (stopWireproxy s).2 = StopOutcome.immediate) : s.handle = none := by
  cases hh : s.handle with
  | none => rfl
  | some pid =>
    exfalso
    obtain ⟨hA, hB, hC, hD, hE, hF⟩ := h
    rcases hF pid hh with ⟨q, hq, hqpid⟩
    have hsome : (s.procs.find? (fun p => p.pid == pid)).isSome := by
      rw [List.find?_isSome]
      exact ⟨q, hq, by simpa using hqpid⟩
    rcases Option.isSome_iff_exists.mp hsome with ⟨p', hfp⟩
    have hfp' : findProc s pid = some p' := hfp
    obtain ⟨hpm, hppid⟩ := findProc_mem hfp'
    by_cases hk : p'.killed = true
    · have hmem := hC p' hpm (by rw [hppid]; exact hh) hk
      rw [hppid, hw] at hmem
      cases hmem
    · have := stop_pending_of_live hh hfp' hk
      rw [this] at hi
      cases hi

/-- A serialized `selectConfig` call preserves the supervisor invariant. -/
theorem inv_selectConfig {s : SupState} (h : SupInv s) (hw : s.stopWaiters = [])
    (newPath : List Char) : SupInv (selectConfig newPath s) := by
  unfold selectConfig
  split
  next => exact h
  next =>
    rcases stop_cases s with hc | ⟨pid, p, hh, hf, hk, hc⟩
    · rw [hc]
      have hhn : s.handle = none := stop_immediate_handle_none h hw (by rw [hc])
      exact inv_selectContinue h hhn newPath
    · rw [hc]
      have hstop := inv_stop h
      rw [hc] at hstop
      exact inv_of_core hstop rfl rfl rfl rfl

/-- Activation from a handle-free state preserves the supervisor invariant. -/
theorem inv_activate {s : SupState} (h : SupInv s) (hh : s.handle = none) :
    SupInv (activate s) := by
  unfold activate
  split
  next => exact inv_of_core h rfl rfl rfl rfl
  next content hcf =>
    split
    next => exact inv_of_core h rfl rfl rfl rfl
    next wg hex =>
      by_cases hwge : wg = []
      · rw [if_pos hwge]
        exact inv_of_core h rfl rfl rfl rfl
      · rw [if_neg hwge]
        have h1 : SupInv (startWireproxy (getProfileName wg) false
            { s with currentWireguardPath := some wg }) := by
          apply inv_start
          · exact inv_of_core h rfl rfl rfl rfl
          · exact hh
        exact inv_of_core h1 rfl rfl rfl rfl

/-- Every reachable state satisfies the supervisor invariant. -/
theorem reach_inv {s : SupState} (h : Reach s) : SupInv s := by
  induction h with
  | init =>
    refine ⟨?_, ?_, ?_, ?_, ?_, ?_⟩ <;> simp [initState]
  | step _ hs ih =>
    cases hs with
    | selectOp newPath s hw hp => exact inv_selectConfig ih hw newPath
    | activateOp s hh hw hp => exact inv_activate ih hh
    | stopOp s => exact inv_stop ih
    | diesOp pid code sig s => exact inv_procDies ih pid code sig
    | closeOp pid s => exact inv_procClose ih pid
    | timerOp t s ht => exact inv_timerCallback ih t.1 t.2
    | errorOp pid err s => exact inv_procErrorEv ih pid err

theorem exitHandler_procs_length (b : Bool) (pn : List Char) (code : Option Int)
    (sig : Option String) (s : SupState) :
    (exitHandler b pn code sig s).procs.length = s.procs.length := by
  unfold exitHandler
  split
  · rfl
  · split
    · split <;> rfl
    · rw [stop_procs_length]
      split <;> rfl

theorem handleError_procs_length (err : Option String) (b : Bool) (s : SupState) :
    (handleError err b s).procs.length = s.procs.length := by
  unfold handleError
  split
  · rfl
  · rw [stop_procs_length]

theorem timerCallback_procs_length (pn : List Char) (b : Bool) (s : SupState) :
    (timerCallback pn b s).procs.length = s.procs.length := by
  unfold timerCallback
  split
  · split <;> rfl
  · split
    · rfl
    · rw [stop_procs_length]

theorem procDies_procs_length (pid : Nat) (code : Option Int) (sig : Option String)
    (s : SupState) : (procDies pid code sig s).procs.length = s.procs.length := by
  unfold procDies
  split
  · rfl
  · split
    · rw [exitHandler_procs_length]
      exact setDeadList_length pid s.procs
    · rfl

theorem procErrorEv_procs_length (pid : Nat) (err : Option String) (s : SupState) :
    (procErrorEv pid err s).procs.length = s.procs.length := by
  unfold procErrorEv
  split
  · rfl
  · rw [handleError_procs_length]
    exact setDeadList_length pid s.procs

/-- With an empty handle, no process is alive (under the invariant). -/
theorem filter_alive_nil_of_handle_none {s : SupState} (h : SupInv s) (hh : s.handle = none) :
    (s.procs.filter (fun p => p.alive)).length = 0 := by
  rw [List.length_eq_zero, List.filter_eq_nil_iff]
  intro q hq hqa
  have := h.1 q hq hqa
  rw [hh] at this
  cases this

/-- With the handle on a dead, already-waited process, no process is alive. -/
theorem filter_alive_nil_of_dead_waiter {s : SupState} (h : SupInv s) {pid : Nat} {p : Proc}
    (hf : findProc s pid = some p) (ha : ¬p.alive = true) (hw : pid ∈ s.stopWaiters) :
    (s.procs.filter (fun p => p.alive)).length = 0 := by
  rw [List.length_eq_zero, List.filter_eq_nil_iff]
  intro q hq hqa
  exact no_alive_of_dead_waiter h hf ha hw q hq hqa

/-- C1, counterexample.  The claim says that for any sequence of
    `startWireproxy`/`stopWireproxy` calls, at no observable instant are two
    tunnel processes simultaneously alive.  But `startWireproxy` calls
    `stopWireproxy` without awaiting it (extension.js:118), so after
    `startWireproxy` is called twice in a row, the first process (which has
    only been sent SIGTERM, not yet confirmed dead) and the freshly spawned
    second process are both alive at once. -/
theorem c1_counterexample :
    ((startWireproxy ['b'] false (startWireproxy ['a'] false initState)).procs.filter
      (fun p => p.alive)).length = 2 := by decide

/-- C1, amended: in every state reachable under the extension's actual
    serialized control flow — where `selectConfig` issues a start only after
    all previously issued stops have completed (its `await stopWireproxy()`),
    and activation starts from a process-free state — at most one process is
    alive at any observable instant. -/
theorem c1_amended_at_most_one_live {s : SupState} (h : Reach s) :
    (s.procs.filter (fun p => p.alive)).length ≤ 1 := by
  obtain ⟨hA, hB, hC, hD, hE, hF⟩ := reach_inv h
  apply length_le_one_of_nodup_of_eq
  · exact (List.Nodup.of_map Proc.pid hE).filter _
  · intro a ha b hb
    rw [List.mem_filter] at ha hb
    have h1 := hA a ha.1 ha.2
    have h2 := hA b hb.1 hb.2
    exact nodup_map_mem_eq hE ha.1 hb.1 (by simpa using h1.symm.trans h2)

theorem c1_amended_witness :
    (((selectConfig "/home/u/a.conf".data initState).procs.filter
      (fun p => p.alive)).length ≤ 1) :=
  c1_amended_at_most_one_live
    (Reach.step Reach.init (Step.selectOp "/home/u/a.conf".data initState rfl rfl))

/-- C2, counterexample.  The claim says `startWireproxy` awaits the
    completion of `stopWireproxy` (termination confirmed) before calling
    spawn.  In fact extension.js:118 does not `await`: after a second
    `startWireproxy` while process 0 is live, process 0 is still alive
    (termination unconfirmed) while process 1 has already been spawned and
    installed as the current handle. -/
theorem c2_counterexample :
    ((findProc (startWireproxy ['b'] false (startWireproxy ['a'] false initState)) 0).map
      (fun p => p.alive) = some true) ∧
    (startWireproxy ['b'] false (startWireproxy ['a'] false initState)).handle = some 1 ∧
    ((findProc (startWireproxy ['b'] false (startWireproxy ['a'] false initState)) 1).map
      (fun p => p.alive) = some true) := by decide

/-- C2, amended: under the extension's actual serialized control flow
    (`selectConfig` awaits `stopWireproxy`'s completion before calling
    `startWireproxy`, activation starts process-free), whenever a step spawns
    a new process, every previously spawned process has already terminated:
    termination is confirmed strictly before the new spawn. -/
theorem c2_amended_spawn_only_after_termination {s s' : SupState} (h : Reach s)
    (hstep : Step s s') (hgrow : s.procs.length < s'.procs.length) :
    (s.procs.filter (fun p => p.alive)).length = 0 := by
  have hinv := reach_inv h
  cases hstep with
  | selectOp newPath s hw hp =>
    rcases stop_cases s with hc | ⟨pid, p, hh, hf, hk, hc⟩
    · exact filter_alive_nil_of_handle_none hinv
        (stop_immediate_handle_none hinv hw (by rw [hc]))
    · exfalso
      unfold selectConfig at hgrow
      split at hgrow
      · exact Nat.lt_irrefl _ hgrow
      · rw [hc] at hgrow
        simp [killProcList_length] at hgrow
  | activateOp s hh hw hp => exact filter_alive_nil_of_handle_none hinv hh
  | stopOp s =>
    exfalso
    rw [stop_procs_length] at hgrow
    exact Nat.lt_irrefl _ hgrow
  | diesOp pid code sig s =>
    exfalso
    rw [procDies_procs_length] at hgrow
    exact Nat.lt_irrefl _ hgrow
  | closeOp pid s =>
    unfold procClose at hgrow
    split at hgrow
    next hf => exact absurd hgrow (Nat.lt_irrefl _)
    next p hf =>
      split at hgrow
      next ha => exact absurd hgrow (Nat.lt_irrefl _)
      next ha =>
        split at hgrow
        next hw => exact filter_alive_nil_of_dead_waiter hinv hf ha hw
        next hw => exact absurd hgrow (Nat.lt_irrefl _)
  | timerOp t s ht =>
    exfalso
    rw [timerCallback_procs_length] at hgrow
    exact Nat.lt_irrefl _ hgrow
  | errorOp pid err s =>
    exfalso
    rw [procErrorEv_procs_length] at hgrow
    exact Nat.lt_irrefl _ hgrow

theorem c2_amended_witness :
    ((initState.procs.filter (fun p => p.alive)).length = 0) :=
  c2_amended_spawn_only_after_termination Reach.init
    (Step.selectOp "/home/u/a.conf".data initState rfl rfl) (by decide)

theorem start_current (pn : List Char) (b : Bool) (s : SupState) :
    (startWireproxy pn b s).currentWireguardPath = s.currentWireguardPath := by
  unfold startWireproxy
  exact stop_current s

/-- C3, counterexample.  The claim says that once `stop()` has set the
    intentional-stop flag, the subsequent exit event never produces an error
    notification or an Error transition, for every exit code and signal.
    But the exit observer only suppresses `signal === "SIGTERM"`
    (extension.js:157): a process that reacts to the stop by exiting with
    code 1 (signal null) while `isStopping` is set still triggers the error
    notification and the Error status. -/
theorem c3_counterexample :
    ((stopWireproxy (startWireproxy ['a'] false initState)).1).isStopping = true ∧
    ((procDies 0 (some 1) none
      (stopWireproxy (startWireproxy ['a'] false initState)).1).notifications).length = 1 ∧
    (procDies 0 (some 1) none
      (stopWireproxy (startWireproxy ['a'] false initState)).1).statusText
      = statusMessages_error := by decide

/-- C3, amended: the intentional-stop suppression applies exactly to exits
    reporting signal SIGTERM.  If `isStopping` is set and the exit reports
    `SIGTERM`, the exit observer changes nothing (no notification, no
    transition); for any other reported signal with a non-zero code the
    error notification is still shown and the Error/reset transition still
    occurs — the status becomes No Config (`isNewConfig`, via `resetConfig`,
    which also deletes the persisted config) or Error — even during an
    intentional stop. -/
theorem c3_amended_suppression_only_sigterm (s : SupState) (b : Bool) (pn : List Char)
    (code : Option Int) (sig : Option String) :
    (s.isStopping = true → exitHandler b pn code (some "SIGTERM") s = s) ∧
    (sig ≠ some "SIGTERM" → code ≠ some 0 →
      (exitHandler b pn code sig s).notifications = exitMsg code sig :: s.notifications ∧
      (exitHandler b pn code sig s).statusText =
        (if b then statusMessages_noConfig else statusMessages_error) ∧
      (b = true → (exitHandler b pn code sig s).configFile = none)) := by
  constructor
  · intro hstop
    unfold exitHandler
    rw [if_pos ⟨hstop, rfl⟩]
  · intro hsig hcode
    unfold exitHandler
    rw [if_neg (by intro hx; exact hsig hx.2), if_neg hcode,
        stop_notifications, stop_statusText, stop_configFile]
    refine ⟨?_, ?_, ?_⟩
    · split <;> rfl
    · cases b <;> rfl
    · intro hb
      subst hb
      rfl

theorem c3_amended_witness :
    exitHandler false ['a'] (some 0) (some "SIGTERM")
        (stopWireproxy (startWireproxy ['a'] false initState)).1
      = (stopWireproxy (startWireproxy ['a'] false initState)).1 ∧
    (exitHandler false ['a'] (some 1) none
        (stopWireproxy (startWireproxy ['a'] false initState)).1).notifications
      = exitMsg (some 1) none ::
        ((stopWireproxy (startWireproxy ['a'] false initState)).1).notifications ∧
    (exitHandler false ['a'] (some 1) none
        (stopWireproxy (startWireproxy ['a'] false initState)).1).statusText
      = statusMessages_error ∧
    (exitHandler true ['a'] (some 1) none
        (stopWireproxy (startWireproxy ['a'] true initState)).1).configFile = none :=
  ⟨(c3_amended_suppression_only_sigterm _ false ['a'] (some 0) (some "SIGTERM")).1 (by decide),
   ((c3_amended_suppression_only_sigterm _ false ['a'] (some 1) none).2
      (by decide) (by decide)).1,
   ((c3_amended_suppression_only_sigterm _ false ['a'] (some 1) none).2
      (by decide) (by decide)).2.1,
   ((c3_amended_suppression_only_sigterm _ true ['a'] (some 1) none).2
      (by decide) (by decide)).2.2 rfl⟩

/-- C4, counterexample.  The claim says a process exiting before the
    stability window never causes a Connected transition, and a process
    still alive when the window elapses becomes Connected exactly once, in
    particular on the activation path (`isNewConfig = false`).  In fact:
    on the activation path `activate` sets the `$(check)` Connected text
    immediately, before any window elapses, and when the armed
    `(profile, isNewConfig = false)` timer fires with the process alive it
    changes nothing at all; moreover a clean exit (code 0) with
    `isNewConfig = true` sets the Connected text before the window. -/
theorem c4_counterexample :
    (activate { initState with
      configFile := some (renderConfig "/home/u/a.conf".data) }).statusText
      = connectedText ['a'] ∧
    (['a'], false) ∈ (activate { initState with
      configFile := some (renderConfig "/home/u/a.conf".data) }).timers ∧
    timerCallback ['a'] false (activate { initState with
        configFile := some (renderConfig "/home/u/a.conf".data) })
      = activate { initState with
        configFile := some (renderConfig "/home/u/a.conf".data) } ∧
    (exitHandler true ['b'] (some 0) none
      { initState with statusText := statusMessages_starting }).statusText
      = connectedText ['b'] := by decide

/-- C4, amended: (1) a failing exit (non-zero code, not an intentional-stop
    SIGTERM) before the window never yields the Connected text — it yields
    No Config (`isNewConfig`) or Error; (2) a clean exit (code 0) with
    `isNewConfig = true` sets the Connected text even before the window;
    (3) when the window elapses with the handle live, the timer sets the
    Connected text iff `isNewConfig = true`, and changes nothing for
    `isNewConfig = false`; (4) on the activation path the Connected text is
    set immediately by `activate` itself. -/
theorem c4_amended_stability_window (s : SupState) (b : Bool) (pn name : List Char)
    (code : Option Int) (sig : Option String) (content wg : List Char) :
    (¬(s.isStopping = true ∧ sig = some "SIGTERM") → code ≠ some 0 →
      (exitHandler b pn code sig s).statusText =
        (if b then statusMessages_noConfig else statusMessages_error)) ∧
    ((exitHandler true name (some 0) none s).statusText = connectedText name) ∧
    (isLiveHandle s = true →
      timerCallback name true s = { s with statusText := connectedText name } ∧
      timerCallback name false s = s) ∧
    (s.configFile = some content → extractWGPath content = some wg → wg ≠ [] →
      (activate s).statusText = connectedText (getProfileName wg)) := by
  refine ⟨?_, ?_, ?_, ?_⟩
  · intro hns hcode
    unfold exitHandler
    rw [if_neg hns, if_neg hcode, stop_statusText]
    cases b <;> rfl
  · have hns : ¬(s.isStopping = true ∧ (none : Option String) = some "SIGTERM") := by
      intro hx
      cases hx.2
    unfold exitHandler
    rw [if_neg hns, if_pos rfl]
    rfl
  · intro hlive
    unfold timerCallback
    constructor
    · rw [if_pos hlive]
      rfl
    · rw [if_pos hlive]
      rfl
  · intro hcf hwg hwgne
    unfold activate
    split
    next hcf2 => rw [hcf2] at hcf; cases hcf
    next content2 hcf2 =>
      have hce : content2 = content := by rw [hcf2] at hcf; simpa using hcf
      subst hce
      split
      next hex2 => rw [hex2] at hwg; cases hwg
      next wg2 hex2 =>
        have hwe : wg = wg2 := by rw [hex2] at hwg; simpa using hwg.symm
        subst hwe
        rw [if_neg hwgne]
        have hcur : (startWireproxy (getProfileName wg) false
            { s with currentWireguardPath := some wg }).currentWireguardPath = some wg := by
          rw [start_current]
        unfold setStatusFromCurrent
        rw [hcur]
        exact if_neg hwgne

theorem c4_amended_witness :
    (exitHandler false ['a'] (some 1) none initState).statusText = statusMessages_error ∧
    (exitHandler true ['b'] (some 0) none initState).statusText = connectedText ['b'] ∧
    timerCallback ['a'] false (activate { initState with
        configFile := some (renderConfig "/home/u/a.conf".data) })
      = activate { initState with
        configFile := some (renderConfig "/home/u/a.conf".data) } ∧
    (activate { initState with
        configFile := some (renderConfig "/home/u/a.conf".data) }).statusText
      = connectedText (getProfileName "/home/u/a.conf".data) :=
  ⟨(c4_amended_stability_window initState false ['a'] ['a'] (some 1) none [] []).1
      (by decide) (by decide),
   (c4_amended_stability_window initState true ['b'] ['b'] (some 0) none [] []).2.1,
   ((c4_amended_stability_window
      (activate { initState with configFile := some (renderConfig "/home/u/a.conf".data) })
      false ['a'] ['a'] (some 1) none [] []).2.2.1 (by decide)).2,
   (c4_amended_stability_window
      { initState with configFile := some (renderConfig "/home/u/a.conf".data) }
      false ['a'] ['a'] (some 1) none (renderConfig "/home/u/a.conf".data)
      "/home/u/a.conf".data).2.2.2 rfl (by decide) (by decide)⟩

/-- C5: every failure path running with `isNewConfig = true` — a crash exit
    (non-zero code, not an intentional-stop SIGTERM), a spawn/runtime error
    through `handleError`, or the stability timer finding the process gone —
    calls `resetConfig`, after which the persisted config file does not
    exist, the in-memory pointer is cleared and the status is No Config; in
    particular the end-to-end run "no config, select endpoint `/wg/E.conf`,
    spawned process crashes with code 1" ends with no config file and the
    No Config status. -/
theorem c5_new_config_failure_clears_config (s : SupState) (pn name : List Char)
    (code : Option Int) (sig err : Option String) :
    (¬(s.isStopping = true ∧ sig = some "SIGTERM") → code ≠ some 0 →
      ((exitHandler true pn code sig s).configFile = none ∧
       (exitHandler true pn code sig s).statusText = statusMessages_noConfig ∧
       (exitHandler true pn code sig s).currentWireguardPath = none)) ∧
    ((handleError err true s).configFile = none ∧
     (handleError err true s).statusText = statusMessages_noConfig ∧
     (handleError err true s).currentWireguardPath = none) ∧
    (isLiveHandle s = false →
      ((timerCallback name true s).configFile = none ∧
       (timerCallback name true s).statusText = statusMessages_noConfig ∧
       (timerCallback name true s).currentWireguardPath = none)) ∧
    ((procDies 0 (some 1) none (selectConfig "/wg/E.conf".data initState)).configFile = none ∧
     (procDies 0 (some 1) none (selectConfig "/wg/E.conf".data initState)).statusText
       = statusMessages_noConfig) := by
  refine ⟨?_, ⟨rfl, rfl, rfl⟩, ?_, by decide⟩
  · intro hns hcode
    unfold exitHandler
    rw [if_neg hns, if_neg hcode, stop_configFile, stop_statusText, stop_current]
    exact ⟨rfl, rfl, rfl⟩
  · intro hdead
    unfold timerCallback
    rw [hdead]
    exact ⟨rfl, rfl, rfl⟩

theorem c5_witness :
    ((exitHandler true ['a'] (some 1) none initState).configFile = none ∧
     (exitHandler true ['a'] (some 1) none initState).statusText = statusMessages_noConfig ∧
     (exitHandler true ['a'] (some 1) none initState).currentWireguardPath = none) ∧
    ((timerCallback ['a'] true initState).configFile = none ∧
     (timerCallback ['a'] true initState).statusText = statusMessages_noConfig ∧
     (timerCallback ['a'] true initState).currentWireguardPath = none) :=
  ⟨(c5_new_config_failure_clears_config initState ['a'] ['a'] (some 1) none none).1
      (by decide) (by decide),
   (c5_new_config_failure_clears_config initState ['a'] ['a'] (some 1) none none).2.2.1
      (by decide)⟩

/-- C6: a start failure reported through `handleError` with
    `isNewConfig = false` (the activation path, e.g. the wireproxy binary
    missing) leaves the persisted config file and the in-memory pointer
    untouched, degrades the status to Error, and shows a user-visible error
    notification. -/
theorem c6_existing_config_failure_preserves_config (s : SupState) (err : Option String) :
    (handleError err false s).configFile = s.configFile ∧
    (handleError err false s).statusText = statusMessages_error ∧
    (handleError err false s).notifications = handleErrMsg err :: s.notifications ∧
    (handleError err false s).currentWireguardPath = s.currentWireguardPath := by
  unfold handleError
  rw [if_neg (show ¬((false : Bool) = true) by decide)]
  rw [stop_configFile, stop_statusText, stop_notifications, stop_current]
  exact ⟨rfl, rfl, rfl, rfl⟩

/-- C9, counterexample.  The claim says calling `stop()` when no process is
    live completes immediately, without error and without side effects.
    But after a clean exit (code 0) the exit observer (extension.js:160-164)
    neither nulls `wireproxyProcess` nor calls `kill`, so no process is live
    yet the handle is non-null with `killed = false`: `stopWireproxy` there
    takes the kill branch (extension.js:198-210), sets `isStopping` (a side
    effect) and returns a promise pending on a `close` event rather than
    resolving immediately.  Concretely: select `/wg/E.conf`, let the spawned
    process exit cleanly, then call `stopWireproxy`. -/
theorem c9_counterexample :
    (((procDies 0 (some 0) none (selectConfig "/wg/E.conf".data initState)).procs.filter
      (fun p => p.alive)).length = 0) ∧
    (procDies 0 (some 0) none (selectConfig "/wg/E.conf".data initState)).isStopping
      = false ∧
    (stopWireproxy (procDies 0 (some 0) none
      (selectConfig "/wg/E.conf".data initState))).2 = StopOutcome.pending 0 ∧
    ((stopWireproxy (procDies 0 (some 0) none
      (selectConfig "/wg/E.conf".data initState))).1).isStopping = true := by decide

/-- C9, amended: `stopWireproxy` is a complete no-op — state unchanged and an
    already-resolved promise — exactly when its guard
    `wireproxyProcess && !wireproxyProcess.killed` is false: when no handle
    is held (the state after any completed stop), or when the held process
    already has the `killed` flag set.  When the held process is unkilled —
    even if it already exited on its own, so that no process is live — the
    call instead sets `isStopping` and returns a promise pending on that
    process's `close` event. -/
theorem c9_amended_stop_noop_iff (s : SupState) :
    (s.handle = none → stopWireproxy s = (s, StopOutcome.immediate)) ∧
    (∀ pid p, s.handle = some pid → findProc s pid = some p → p.killed = true →
      stopWireproxy s = (s, StopOutcome.immediate)) ∧
    (∀ pid p, s.handle = some pid → findProc s pid = some p → p.killed = false →
      (stopWireproxy s).2 = StopOutcome.pending pid ∧
      ((stopWireproxy s).1).isStopping = true) := by
  refine ⟨?_, ?_, ?_⟩
  · intro hh
    unfold stopWireproxy
    rw [hh]
  · intro pid p hh hf hk
    rcases stop_cases s with hc | ⟨pid2, p2, hh2, hf2, hk2, hc⟩
    · exact hc
    · exfalso
      have hpe : pid2 = pid := by simpa using hh2.symm.trans hh
      subst hpe
      rw [hf] at hf2
      have hpp : p = p2 := by simpa using hf2
      rw [← hpp, hk] at hk2
      cases hk2
  · intro pid p hh hf hk
    rcases stop_cases s with hc | ⟨pid2, p2, hh2, hf2, hk2, hc⟩
    · exfalso
      have := stop_pending_of_live hh hf (by simp [hk])
      rw [hc] at this
      cases this
    · have hpe : pid2 = pid := by simpa using hh2.symm.trans hh
      subst hpe
      rw [hc]
      exact ⟨rfl, rfl⟩

theorem c9_amended_witness :
    stopWireproxy initState = (initState, StopOutcome.immediate) ∧
    (stopWireproxy (procDies 0 (some 0) none
      (selectConfig "/wg/E.conf".data initState))).2 = StopOutcome.pending 0 :=
  ⟨(c9_amended_stop_noop_iff initState).1 rfl,
   ((c9_amended_stop_noop_iff (procDies 0 (some 0) none
       (selectConfig "/wg/E.conf".data initState))).2.2 0
     { pid := 0, alive := false, killed := false, obsProfile := ['E'], obsNewConfig := true }
     (by decide) (by decide) (by decide)).1⟩

theorem stripPre_self_append (xs t : List Char) : stripPre xs (xs ++ t) = some t := by
  induction xs with
  | nil => rfl
  | cons a as ih => simp [stripPre, ih]

theorem splitLinesAux_no_term :
    ∀ (xs : List Char), (∀ c ∈ xs, isLineTerm c = false) →
    ∀ (acc ys : List Char),
      splitLinesAux (xs ++ '\n' :: ys) acc = (acc.reverse ++ xs) :: splitLinesAux ys []
  | [], _, acc, ys => by
    simp [splitLinesAux, isLineTerm]
  | c :: cs, h, acc, ys => by
    have hc : isLineTerm c = false := h c (List.mem_cons_self c cs)
    have hcs : ∀ x ∈ cs, isLineTerm x = false := fun x hx => h x (List.mem_cons_of_mem c hx)
    have ih := splitLinesAux_no_term cs hcs (c :: acc) ys
    simp only [List.cons_append]
    rw [splitLinesAux, if_neg (by simp [hc]), ih]
    simp

theorem renderConfig_decompose (p : List Char) :
    renderConfig p = (wgKeyQuote ++ p ++ ['\"']) ++ '\n' ::
      ("[http]\nBindAddress = 127.0.0.1:" ++ toString PROXY_PORT).data := by
  unfold renderConfig
  simp [List.append_assoc]

theorem captureAfter_append_quote (p : List Char) :
    captureAfter (p ++ ['\"']) = some p := by
  unfold captureAfter
  rw [List.reverse_append]
  simp [List.dropWhile_cons]

theorem matchWGLine_render (p : List Char) :
    matchWGLine (wgKeyQuote ++ p ++ ['\"']) = some p := by
  unfold matchWGLine
  rw [List.append_assoc, stripPre_self_append]
  exact captureAfter_append_quote p

theorem wgKeyQuote_no_term : ∀ c ∈ wgKeyQuote, isLineTerm c = false := by decide

theorem extractWGPath_render (p : List Char) (h : ∀ c ∈ p, isLineTerm c = false) :
    extractWGPath (renderConfig p) = some p := by
  have hnt : ∀ c ∈ wgKeyQuote ++ p ++ ['\"'], isLineTerm c = false := by
    intro c hc
    rcases List.mem_append.mp hc with hc1 | hc2
    · rcases List.mem_append.mp hc1 with hc3 | hc4
      · exact wgKeyQuote_no_term c hc3
      · exact h c hc4
    · have : c = '\"' := by simpa using hc2
      subst this
      decide
  unfold extractWGPath splitLines
  rw [renderConfig_decompose, splitLinesAux_no_term _ hnt]
  unfold findWGLine
  rw [List.reverse_nil, List.nil_append, matchWGLine_render]

/-- C7, counterexample.  The claim quantifies the round trip over every
    endpoint path `p`.  For a path containing a line terminator, such as
    `['x', '\n', 'y']`, the written `WGConfig` line is broken in two and the
    regex `^WGConfig = "(.*)"` (whose `.` does not match line terminators)
    no longer matches, so reading back yields `none`, not the path. -/
theorem c7_counterexample :
    getWireguardPath ((updateConfig ['x', '\n', 'y'] initState).configFile)
      ≠ some ['x', '\n', 'y'] := by decide

/-- C7, amended: for every endpoint path `p` that contains no line
    terminator (newline, carriage return, U+2028, U+2029), writing the
    config with `updateConfig` and reading it back with `getWireguardPath`
    yields exactly `p` (even when `p` contains quotes, thanks to the greedy
    capture); and after `resetConfig` reading yields `none`. -/
theorem c7_amended_round_trip (p : List Char) (s : SupState)
    (h : ∀ c ∈ p, isLineTerm c = false) :
    getWireguardPath ((updateConfig p s).configFile) = some p ∧
    getWireguardPath ((resetConfig s).configFile) = none := by
  constructor
  · show extractWGPath (renderConfig p) = some p
    exact extractWGPath_render p h
  · rfl

theorem c7_amended_witness :
    getWireguardPath ((updateConfig "/home/u/a.conf".data initState).configFile)
      = some "/home/u/a.conf".data ∧
    getWireguardPath ((resetConfig initState).configFile) = none :=
  c7_amended_round_trip "/home/u/a.conf".data initState (by decide)

theorem findWGLine_none_iff (ls : List (List Char)) :
    findWGLine ls = none ↔ ∀ l ∈ ls, matchWGLine l = none := by
  induction ls with
  | nil => simp [findWGLine]
  | cons l ls ih =>
    unfold findWGLine
    cases hm : matchWGLine l with
    | some r => simp [hm]
    | none => simp [hm, ih]

theorem findWGLine_some (ls : List (List Char)) (r : List Char) :
    findWGLine ls = some r → ∃ l ∈ ls, matchWGLine l = some r := by
  induction ls with
  | nil => intro hx; exact Option.noConfusion hx
  | cons l ls ih =>
    unfold findWGLine
    cases hm : matchWGLine l with
    | some r2 =>
      intro hx
      have hre : r2 = r := by simpa using hx
      exact ⟨l, List.mem_cons_self l ls, by rw [hm, hre]⟩
    | none =>
      intro hx
      rcases ih hx with ⟨l2, hl2, hm2⟩
      exact ⟨l2, List.mem_cons_of_mem l hl2, hm2⟩

/-- C8: reading the persisted config never raises: it yields `none` exactly
    when the file is absent or no line of its contents matches
    `^WGConfig = "(.*)"`, and when it yields a path, that path is the
    capture of a matching line of the contents. -/
theorem c8_read_characterization :
    getWireguardPath none = none ∧
    ∀ content : List Char,
      (getWireguardPath (some content) = none ↔
        ∀ l ∈ splitLines content, matchWGLine l = none) ∧
      (∀ r, getWireguardPath (some content) = some r →
        ∃ l ∈ splitLines content, matchWGLine l = some r) := by
  refine ⟨rfl, ?_⟩
  intro content
  exact ⟨findWGLine_none_iff (splitLines content),
         fun r hr => findWGLine_some (splitLines content) r hr⟩

theorem c8_witness :
    getWireguardPath (some (renderConfig ['a'])) = some ['a'] ∧
    (∃ l ∈ splitLines (renderConfig ['a']), matchWGLine l = some ['a']) :=
  ⟨by decide, (c8_read_characterization.2 (renderConfig ['a'])).2 ['a'] (by decide)⟩

theorem connected_starts_with_check (name : List Char) :
    (stripPre "$(check)".data (connectedText name)).isSome = true := by
  have he : connectedText name
      = "$(check)".data ++ (' ' :: (EXTENSION_NAME ++ (": ".data ++ name))) := by
    show "$(check) ".data ++ EXTENSION_NAME ++ ": ".data ++ name = _
    have h0 : "$(check) ".data = "$(check)".data ++ [' '] := by decide
    rw [h0]
    simp
  rw [he, stripPre_self_append]
  rfl

/-- C10: on each status-bar text the extension itself assigns — the
    No Config, Error and Starting messages and the Connected text built from
    any profile name — `getStatusFromText` yields one of the four states and
    never "Unknown", and the tooltip `updateTooltip` renders always pairs
    that status name with the fixed proxy port. -/
theorem c10_status_text_never_unknown (name text : List Char)
    (h : text = statusMessages_noConfig ∨ text = statusMessages_error ∨
         text = statusMessages_starting ∨ text = connectedText name) :
    getStatusFromText text ≠ "Unknown" ∧
    (getStatusFromText text = "No Config" ∨ getStatusFromText text = "Error" ∨
     getStatusFromText text = "Starting" ∨ getStatusFromText text = "Connected") ∧
    tooltipFor text = "Status: " ++ getStatusFromText text ++ "\nWireproxy port: "
      ++ toString PROXY_PORT := by
  have hc : getStatusFromText (connectedText name) = "Connected" := by
    unfold getStatusFromText
    rw [if_pos (connected_starts_with_check name)]
  rcases h with rfl | rfl | rfl | rfl
  · exact ⟨by decide, by decide, rfl⟩
  · exact ⟨by decide, by decide, rfl⟩
  · exact ⟨by decide, by decide, rfl⟩
  · refine ⟨?_, ?_, rfl⟩
    · rw [hc]
      decide
    · rw [hc]
      exact Or.inr (Or.inr (Or.inr rfl))

theorem c10_witness :
    getStatusFromText (connectedText "myprofile".data) ≠ "Unknown" ∧
    tooltipFor statusMessages_error
      = "Status: " ++ getStatusFromText statusMessages_error ++ "\nWireproxy port: "
        ++ toString PROXY_PORT :=
  ⟨(c10_status_text_never_unknown "myprofile".data (connectedText "myprofile".data)
      (Or.inr (Or.inr (Or.inr rfl)))).1,
   (c10_status_text_never_unknown [] statusMessages_error (Or.inr (Or.inl rfl))).2.2⟩
